import Mathlib

/-!
Shallow embedding of the workload engine of `bench/wtperf/wtperf.c` (WiredTiger
benchmark harness) and proofs about the specification's claims.

Machine integers are modelled as `Nat` with explicit reductions modulo `2^32` /
`2^64` at the points where the C source performs 32/64-bit unsigned arithmetic
or casts.  External collaborators (the store's cursor operations, the random
number generator, the floating-point Pareto transform) enter the model as
explicit value parameters, as the specification treats them as interface
boundaries.
-/

/-- Width constant for 32-bit unsigned arithmetic (`uint32_t`). -/
def U32 : Nat := 4294967296

/-- Width constant for 64-bit unsigned arithmetic (`uint64_t`). -/
def U64 : Nat := 18446744073709551616

/-- Operation tags stored in the 100-slot schedule (`WORKER_READ`,
`WORKER_INSERT`, `WORKER_INSERT_RMW`, `WORKER_UPDATE` in `wtperf.h`; the header
is not part of the sources, so the tags are modelled from the spec as four
distinct constants). -/
inductive WorkerOp where
  | WORKER_READ
  | WORKER_INSERT
  | WORKER_INSERT_RMW
  | WORKER_UPDATE
deriving DecidableEq

/-- Number of occurrences of a tag in a schedule array. -/
def countOp (o : WorkerOp) : List WorkerOp → Nat
  | [] => 0
  | a :: l => (if a = o then 1 else 0) + countOp o l

/-- In-array part of the scan `for (; *p != WORKER_READ; ++p)` of
`run_mix_schedule_op` (wtperf.c:372): starting at index `p`, find the first
slot holding `WORKER_READ`, examining at most `fuel` slots (callers pass
`100 - p`, so exactly the indices `p..99` are examined, matching the pointer
walk up to but excluding `end`).  The `getD` default is a non-read tag, so a
lookup past the end of the list never reports a read slot. -/
def findReadFrom (l : List WorkerOp) : Nat → Nat → Option Nat
  | 0, _ => none
  | fuel + 1, p =>
      if l.getD p .WORKER_INSERT = .WORKER_READ then some p
      else findReadFrom l fuel (p + 1)

/-- One full execution of the scan loop of `run_mix_schedule_op`
(wtperf.c:372-374) from index `p` (`0 ≤ p ≤ 100`).  The C loop tests
`*p != WORKER_READ` BEFORE the `p == end` wrap check, so when the in-array scan
`p..99` fails it dereferences the one-past-the-end byte `g_run_mix_ops[100]`
(modelled by the parameter `oobByte`, the unspecified byte adjacent to the
array).  If that byte equals the read tag the loop exits with `p = end`
(index 100); otherwise the body resets `p` to the array start and the `++p` of
the same iteration advances it to index 1, so the wrapped scan restarts at
index 1 (slot 0 is skipped).  A wrapped scan that again finds no read slot
re-dereferences `end` forever; that divergence is modelled as `none`.
The returned Bool records whether the out-of-bounds dereference happened. -/
def scanLoop (oobByte : WorkerOp) (l : List WorkerOp) (p : Nat) :
    Option (Nat × Bool) :=
  match findReadFrom l (100 - p) p with
  | some q => some (q, false)
  | none =>
      if oobByte = .WORKER_READ then some (100, true)
      else
        match findReadFrom l 99 1 with
        | some q => some (q, true)
        | none => none

/-- State of the schedule builder: the 100-slot array `g_run_mix_ops`, the
index of the scan pointer `p`, plus two instrumentation flags recording
whether the builder ever read, respectively wrote, through the
one-past-the-end position (the flags have no counterpart in the C state; they
record the out-of-bounds accesses the C code performs on the same inputs). -/
structure MixState where
  sched : List WorkerOp
  p : Nat
  oob_read : Bool
  oob_write : Bool

/-- One iteration of the outer `for (i = 0; i < op_cnt; ++i)` loop of
`run_mix_schedule_op` (wtperf.c:371-381): scan for a read slot, overwrite it
with `op` (a write at index 100 is an out-of-bounds write and leaves the array
unchanged), then either reset the pointer to the start (`end - jump < p`) or
advance it by `jump`. -/
def run_mix_step (oobByte op : WorkerOp) (jump : Nat) (st : MixState) :
    Option MixState :=
  match scanLoop oobByte st.sched st.p with
  | none => none
  | some (q, f) =>
      some { sched := if q < 100 then st.sched.set q op else st.sched
             p := if 100 - jump < q then 0 else q + jump
             oob_read := st.oob_read || f
             oob_write := st.oob_write || decide (100 ≤ q) }

/-- The outer loop of `run_mix_schedule_op`, `op_cnt` iterations. -/
def run_mix_loop (oobByte op : WorkerOp) (jump : Nat) :
    Nat → MixState → Option MixState
  | 0, st => some st
  | n + 1, st =>
      match run_mix_step oobByte op jump st with
      | none => none
      | some st' => run_mix_loop oobByte op jump n st'

/-- `run_mix_schedule_op` (wtperf.c:356-382): `jump = 100 / op_cnt`, the scan
pointer starts at the beginning of the array (`p = g_run_mix_ops`). -/
def run_mix_schedule_op (oobByte op : WorkerOp) (op_cnt : Nat)
    (st : MixState) : Option MixState :=
  run_mix_loop oobByte op (100 / op_cnt) op_cnt { st with p := 0 }

/-- `run_mix_schedule` (wtperf.c:388-399): start from the all-read array
(`memset(g_run_mix_ops, WORKER_READ, ...)`), then place the inserts
(`WORKER_INSERT_RMW` when `insert_rmw` is configured) and then the updates. -/
def run_mix_schedule (oobByte : WorkerOp) (insert_rmw : Bool)
    (run_mix_inserts run_mix_updates : Nat) : Option MixState :=
  match (if run_mix_inserts ≠ 0 then
           run_mix_schedule_op oobByte
             (if insert_rmw then .WORKER_INSERT_RMW else .WORKER_INSERT)
             run_mix_inserts ⟨List.replicate 100 .WORKER_READ, 0, false, false⟩
         else some ⟨List.replicate 100 .WORKER_READ, 0, false, false⟩) with
  | none => none
  | some st1 =>
      if run_mix_updates ≠ 0 then
        run_mix_schedule_op oobByte .WORKER_UPDATE run_mix_updates st1
      else some st1

/-- Tag counts of the built schedule together with the out-of-bounds write
flag: (inserts, updates, reads, oob_write). -/
def mixCounts (r : Option MixState) : Option (Nat × Nat × Nat × Bool) :=
  r.map (fun st => (countOp .WORKER_INSERT st.sched,
                    countOp .WORKER_UPDATE st.sched,
                    countOp .WORKER_READ st.sched,
                    st.oob_write))

/-! ### Counting lemmas for the schedule builder -/

theorem countOp_replicate (o a : WorkerOp) (n : Nat) :
    countOp o (List.replicate n a) = if a = o then n else 0 := by
  induction n with
  | zero => simp [countOp]
  | succ n ih =>
      simp only [List.replicate_succ, countOp, ih]
      by_cases h : a = o
      · simp [h, Nat.add_comm]
      · simp [h]

theorem countOp_set_of_getD (l : List WorkerOp) (q : Nat) (o : WorkerOp)
    (ho : o ≠ .WORKER_READ)
    (hget : l.getD q .WORKER_INSERT = .WORKER_READ) :
    countOp o (l.set q o) = countOp o l + 1 ∧
    countOp .WORKER_READ (l.set q o) + 1 = countOp .WORKER_READ l ∧
    (∀ c, c ≠ o → c ≠ .WORKER_READ → countOp c (l.set q o) = countOp c l) := by
  induction l generalizing q with
  | nil => simp [List.getD] at hget
  | cons a t ih =>
      cases q with
      | zero =>
          simp only [List.getD_cons_zero] at hget
          subst hget
          refine ⟨?_, ?_, ?_⟩
          · simp [countOp, ho, Ne.symm ho]; omega
          · simp [countOp, ho, Ne.symm ho]; omega
          · intro c hc hcr
            simp [countOp, Ne.symm hc, Ne.symm hcr]
      | succ q =>
          have h' := ih q (by simpa [List.getD_cons_succ] using hget)
          refine ⟨?_, ?_, ?_⟩
          · simp only [List.set_cons_succ, countOp, h'.1]; omega
          · simp only [List.set_cons_succ, countOp]
            have := h'.2.1; omega
          · intro c hc hcr
            simp only [List.set_cons_succ, countOp, h'.2.2 c hc hcr]

theorem findReadFrom_getD (l : List WorkerOp) :
    ∀ fuel p q, findReadFrom l fuel p = some q →
      l.getD q .WORKER_INSERT = .WORKER_READ := by
  intro fuel
  induction fuel with
  | zero => intro p q h; simp [findReadFrom] at h
  | succ n ih =>
      intro p q h
      by_cases hp : l.getD p .WORKER_INSERT = .WORKER_READ
      · simp only [findReadFrom, if_pos hp, Option.some_inj] at h
        exact h ▸ hp
      · simp only [findReadFrom, if_neg hp] at h
        exact ih (p + 1) q h

theorem scanLoop_getD (b : WorkerOp) (l : List WorkerOp) (p q : Nat) (f : Bool)
    (h : scanLoop b l p = some (q, f)) :
    q = 100 ∨ l.getD q .WORKER_INSERT = .WORKER_READ := by
  unfold scanLoop at h
  cases h1 : findReadFrom l (100 - p) p with
  | some r =>
      rw [h1] at h
      simp only [Option.some_inj, Prod.mk.injEq] at h
      exact Or.inr (h.1 ▸ findReadFrom_getD l _ _ _ h1)
  | none =>
      rw [h1] at h
      by_cases hb : b = .WORKER_READ
      · rw [if_pos hb] at h
        simp only [Option.some_inj, Prod.mk.injEq] at h
        exact Or.inl h.1.symm
      · rw [if_neg hb] at h
        cases h2 : findReadFrom l 99 1 with
        | some r =>
            rw [h2] at h
            simp only [Option.some_inj, Prod.mk.injEq] at h
            exact Or.inr (h.1 ▸ findReadFrom_getD l _ _ _ h2)
        | none => rw [h2] at h; exact absurd h (by simp)

theorem run_mix_step_count (b o : WorkerOp) (j : Nat)
    (ho : o ≠ .WORKER_READ) (st st1 : MixState)
    (h : run_mix_step b o j st = some st1)
    (hw : st1.oob_write = false) :
    st.oob_write = false ∧
    countOp o st1.sched = countOp o st.sched + 1 ∧
    countOp .WORKER_READ st1.sched + 1 = countOp .WORKER_READ st.sched ∧
    ∀ c, c ≠ o → c ≠ .WORKER_READ → countOp c st1.sched = countOp c st.sched := by
  unfold run_mix_step at h
  cases hs : scanLoop b st.sched st.p with
  | none => rw [hs] at h; exact absurd h (by simp)
  | some qf =>
      obtain ⟨q, f⟩ := qf
      rw [hs] at h
      simp only [Option.some_inj] at h
      subst h
      simp only at hw
      have hq : q < 100 := by
        by_contra hq
        simp [decide_eq_true (by omega : 100 ≤ q)] at hw
      have hget : st.sched.getD q .WORKER_INSERT = .WORKER_READ := by
        rcases scanLoop_getD b st.sched st.p q f hs with h100 | hg
        · omega
        · exact hg
      have hcs := countOp_set_of_getD st.sched q o ho hget
      refine ⟨?_, ?_, ?_, ?_⟩
      · simp only [Bool.or_eq_false_iff] at hw; exact hw.1
      · simp only [if_pos hq]; exact hcs.1
      · simp only [if_pos hq]; exact hcs.2.1
      · intro c hc hcr; simp only [if_pos hq]; exact hcs.2.2 c hc hcr

theorem run_mix_loop_count (b o : WorkerOp) (j : Nat)
    (ho : o ≠ .WORKER_READ) :
    ∀ n st st', run_mix_loop b o j n st = some st' →
      st'.oob_write = false →
      st.oob_write = false ∧
      countOp o st'.sched = countOp o st.sched + n ∧
      countOp .WORKER_READ st'.sched + n = countOp .WORKER_READ st.sched ∧
      ∀ c, c ≠ o → c ≠ .WORKER_READ → countOp c st'.sched = countOp c st.sched := by
  intro n
  induction n with
  | zero =>
      intro st st' h hw
      simp only [run_mix_loop, Option.some_inj] at h
      subst h
      exact ⟨hw, by omega, by omega, fun c _ _ => rfl⟩
  | succ n ih =>
      intro st st' h hw
      unfold run_mix_loop at h
      cases h1 : run_mix_step b o j st with
      | none => rw [h1] at h; exact absurd h (by simp)
      | some st1 =>
          rw [h1] at h
          have hrec := ih st1 st' h hw
          have hstep := run_mix_step_count b o j ho st st1 h1 hrec.1
          refine ⟨hstep.1, ?_, ?_, ?_⟩
          · have := hrec.2.1; have := hstep.2.1; omega
          · have := hrec.2.2.1; have := hstep.2.2.1; omega
          · intro c hc hcr
            rw [hrec.2.2.2 c hc hcr, hstep.2.2.2 c hc hcr]

/-- C1 (amended): for every schedule-mix request with `1 ≤ i`, `1 ≤ u` and
`i + u ≤ 100` whose build never selects the one-past-the-end slot for a write
(no out-of-bounds write; this can only fail when the builder's scan runs off
the array and the unspecified byte after it compares equal to the read tag),
`run_mix_schedule` over the initial all-read 100-slot array produces a
schedule with exactly `i` insert tags, exactly `u` update tags and
`100 - i - u` read tags.  The quantification over `b` is over every possible
value of the unspecified byte adjacent to the array. -/
theorem C1_run_mix_schedule_exact_counts (b : WorkerOp) (i u : Nat)
    (hi : 1 ≤ i) (hu : 1 ≤ u) (hiu : i + u ≤ 100)
    (hok : (run_mix_schedule b false i u).map MixState.oob_write = some false) :
    mixCounts (run_mix_schedule b false i u) = some (i, u, 100 - i - u, false) := by
  obtain ⟨st', hrun0, hw⟩ :
      ∃ st', run_mix_schedule b false i u = some st' ∧ st'.oob_write = false := by
    cases hr : run_mix_schedule b false i u with
    | none => rw [hr] at hok; simp at hok
    | some s => rw [hr] at hok; simp at hok; exact ⟨s, rfl, hok⟩
  have hi0 : i ≠ 0 := by omega
  have hu0 : u ≠ 0 := by omega
  have hrun := hrun0
  unfold run_mix_schedule at hrun
  rw [if_pos hi0] at hrun
  simp only [Bool.false_eq_true, if_false] at hrun
  cases hp1 : run_mix_schedule_op b .WORKER_INSERT i
      ⟨List.replicate 100 .WORKER_READ, 0, false, false⟩ with
  | none => rw [hp1] at hrun; exact absurd hrun (by simp)
  | some s1 =>
      rw [hp1] at hrun
      dsimp only [] at hrun
      rw [if_pos hu0] at hrun
      unfold run_mix_schedule_op at hrun hp1
      have h2 := run_mix_loop_count b .WORKER_UPDATE (100 / u) (by decide) u
        { s1 with p := 0 } st' hrun hw
      have h1 := run_mix_loop_count b .WORKER_INSERT (100 / i) (by decide) i
        { (⟨List.replicate 100 .WORKER_READ, 0, false, false⟩ : MixState) with p := 0 }
        s1 hp1 h2.1
      have cR0 : countOp .WORKER_READ (List.replicate 100 .WORKER_READ) = 100 := by
        rw [countOp_replicate]; simp
      have cI1 : countOp .WORKER_INSERT s1.sched = i := by
        have := h1.2.1; simp only at this
        rw [countOp_replicate] at this; simpa using this
      have cR1 : countOp .WORKER_READ s1.sched + i = 100 := by
        have := h1.2.2.1; simp only at this; omega
      have cU1 : countOp .WORKER_UPDATE s1.sched = 0 := by
        have := h1.2.2.2 .WORKER_UPDATE (by decide) (by decide); simp only at this
        rw [countOp_replicate] at this; simpa using this
      have cU2 : countOp .WORKER_UPDATE st'.sched = u := by
        have := h2.2.1; simp only at this; omega
      have cR2 : countOp .WORKER_READ st'.sched + u = countOp .WORKER_READ s1.sched := by
        have := h2.2.2.1; simp only at this; omega
      have cI2 : countOp .WORKER_INSERT st'.sched = i := by
        have := h2.2.2.2 .WORKER_INSERT (by decide) (by decide); simp only at this; omega
      have cR : countOp .WORKER_READ st'.sched = 100 - i - u := by omega
      rw [mixCounts, hrun0]
      rw [show (Option.map (fun st => (countOp .WORKER_INSERT st.sched,
            countOp .WORKER_UPDATE st.sched, countOp .WORKER_READ st.sched,
            st.oob_write)) (some st') : Option (Nat × Nat × Nat × Bool))
          = some (countOp .WORKER_INSERT st'.sched, countOp .WORKER_UPDATE st'.sched,
            countOp .WORKER_READ st'.sched, st'.oob_write) from rfl]
      rw [cI2, cU2, cR, hw]

set_option maxRecDepth 10000

/-- C1 witness: at the concrete mix 20% inserts / 10% updates the build stays
in bounds and the schedule holds exactly 20 insert, 10 update and 70 read
tags. -/
theorem C1_witness :
    mixCounts (run_mix_schedule .WORKER_INSERT false 20 10) =
      some (20, 10, 70, false) :=
  C1_run_mix_schedule_exact_counts .WORKER_INSERT 20 10 (by decide) (by decide)
    (by decide) (by decide)

/-- C1 counterexample: with inserts = 67 and updates = 3 (within the claim's
bounds `1 ≤ i`, `1 ≤ u`, `i + u ≤ 100`) the update pass jumps the scan pointer
exactly onto the one-past-the-end position and dereferences it; when the
unspecified byte there equals the read tag, the slot "found" is the
one-past-the-end position, the write goes out of bounds, and the final
schedule holds only 2 update tags instead of the 3 the claim promises. -/
theorem C1_counterexample :
    mixCounts (run_mix_schedule .WORKER_READ false 67 3) = some (67, 2, 31, true) ∧
    (2 : Nat) ≠ 3 := by
  constructor
  · decide
  · decide

/-- C9 (code bug): with `op_cnt = 3` applied to the schedule state left by an
insert pass of 67 (which still holds 33 ≥ 3 read slots, satisfying the claim's
hypothesis), the scan of `run_mix_schedule_op` dereferences the
one-past-the-end position: after the first update lands at slot 67, the jump
stride 33 moves the pointer to index 100 = `end`, and the next scan evaluates
`*p` there before the wrap check runs.  The insert pass itself is clean
(`oob_read = false` on its result).  Here the adjacent byte is taken to
differ from the read tag, so only the out-of-bounds READ happens
(`oob_read = true`, `oob_write = false`). -/
theorem C9_scan_oob_deref :
    ((run_mix_schedule_op .WORKER_INSERT .WORKER_INSERT 67
        ⟨List.replicate 100 .WORKER_READ, 0, false, false⟩).bind
      (fun s1 => (run_mix_schedule_op .WORKER_INSERT .WORKER_UPDATE 3 s1).map
        (fun s2 => (countOp .WORKER_READ s1.sched, s1.oob_read,
                    s2.oob_read, s2.oob_write))))
    = some (33, false, true, false) := by decide

/-! ### Key distribution generator -/

/-- Configuration fields used by the key distribution generator.  The CONFIG
struct lives in `wtperf_opt.i` / `wtperf.h`, which are not part of the
sources; modelled from the spec: `icount` is the initial record count (a
32-bit count, cf. the `(uint32_t)` cast in `find_table_count`, wtperf.c:952),
`random_range` the fixed random-range size (0 = dynamic growing key space),
`insert_threads` the insert thread count, and `pareto` the
Pareto-distribution flag. -/
structure CONFIG where
  icount : Nat
  random_range : Nat
  insert_threads : Nat
  pareto : Bool
deriving DecidableEq

/-- `wtperf_value_range` (wtperf.c:1342-1349).  `g_insert_key` is the global
insert-key counter (a `uint64_t`).  With a fixed `random_range` the result is
`icount + random_range` computed in 32-bit unsigned arithmetic; otherwise it
is `icount + g_insert_key - (insert_threads + 1)` computed in 64-bit unsigned
arithmetic (`insert_threads + 1` itself in 32-bit arithmetic), which wraps
modulo `2^64` when the subtrahend exceeds the sum. -/
def wtperf_value_range (cfg : CONFIG) (g_insert_key : Nat) : Nat :=
  if cfg.random_range ≠ 0 then
    (cfg.icount + cfg.random_range) % U32
  else
    ((cfg.icount + g_insert_key) % U64 + U64 - (cfg.insert_threads + 1) % U32) % U64

/-- `wtperf_rand` (wtperf.c:1351-1381).  `rand_draw` is the value returned by
the external generator `__wt_random()` (a `uint32_t`); `pareto_calc` is the
`uint64_t` value produced by the double-precision inverse-Pareto-CDF
computation `(pow(U, S1) - 1) * S2` (wtperf.c:1366-1369) — floating point is
not embedded, so that value enters as an unconstrained parameter, which only
strengthens the range theorems below.  In Pareto mode an out-of-range
transform result is first clamped to the value range (wtperf.c:1375-1376);
the final value is always reduced modulo the value range and incremented
("Avoid zero - LSM doesn't like it", wtperf.c:1378-1379). -/
def wtperf_rand (cfg : CONFIG) (g_insert_key rand_draw pareto_calc : Nat) : Nat :=
  (if cfg.pareto then
     (if pareto_calc > wtperf_value_range cfg g_insert_key then
        wtperf_value_range cfg g_insert_key
      else pareto_calc)
   else rand_draw % U32) % wtperf_value_range cfg g_insert_key + 1

/-- C2 (confirmed): whenever the current value range is at least 1,
`wtperf_rand` returns a value in `[1, value_range]` — never 0 and never above
the bound — in both uniform and Pareto modes (`cfg.pareto` is arbitrary, and
so are the uniform draw and the Pareto transform value). -/
theorem C2_wtperf_rand_in_range (cfg : CONFIG) (key draw pc : Nat)
    (h : 1 ≤ wtperf_value_range cfg key) :
    1 ≤ wtperf_rand cfg key draw pc ∧
    wtperf_rand cfg key draw pc ≤ wtperf_value_range cfg key := by
  unfold wtperf_rand
  have hmod := Nat.mod_lt
    (x := if cfg.pareto then
            (if pc > wtperf_value_range cfg key then wtperf_value_range cfg key
             else pc)
          else draw % U32)
    (y := wtperf_value_range cfg key) (by omega)
  omega

/-- C2 witness: a concrete Pareto-mode configuration with value range
`(10 + 5) % 2^32 = 15 ≥ 1`. -/
theorem C2_witness :
    1 ≤ wtperf_rand ⟨10, 5, 1, true⟩ 0 123 456 ∧
    wtperf_rand ⟨10, 5, 1, true⟩ 0 123 456 ≤ wtperf_value_range ⟨10, 5, 1, true⟩ 0 :=
  C2_wtperf_rand_in_range ⟨10, 5, 1, true⟩ 0 123 456 (by decide)

/-- C4 (code bug): in Pareto mode, a transform value above the value range is
clamped to the value range (wtperf.c:1375-1376), but the subsequent
`rval = (rval % wtperf_value_range(cfg)) + 1` (wtperf.c:1379) maps that
clamped value to `value_range % value_range + 1 = 1`.  So the function
returns the MINIMUM valid key 1, not the maximum valid key the claim (and the
code's own comment, "That will lead to the last item in the table being
hot", wtperf.c:1371-1374) promises.  Concretely: value range 15, transform
value 16 — the claim demands 15, the code computes 1. -/
theorem C4_pareto_clamp_returns_one :
    wtperf_value_range ⟨10, 5, 0, true⟩ 0 = 15 ∧
    (16 : Nat) > 15 ∧
    wtperf_rand ⟨10, 5, 0, true⟩ 0 0 16 = 1 ∧
    (1 : Nat) ≠ 15 := by decide

/-- Shared helper: in dynamic mode, when nothing wraps the value range equals
the exact integer difference `icount + g_insert_key - (insert_threads + 1)`. -/
theorem wtperf_value_range_no_wrap (cfg : CONFIG) (key : Nat)
    (h0 : cfg.random_range = 0)
    (h1 : cfg.insert_threads + 1 < U32)
    (h2 : cfg.insert_threads + 1 ≤ cfg.icount + key)
    (h3 : cfg.icount + key < U64) :
    wtperf_value_range cfg key = cfg.icount + key - (cfg.insert_threads + 1) := by
  unfold wtperf_value_range
  rw [if_neg (by simp [h0])]
  rw [Nat.mod_eq_of_lt h3, Nat.mod_eq_of_lt h1]
  rw [show cfg.icount + key + U64 - (cfg.insert_threads + 1)
        = cfg.icount + key - (cfg.insert_threads + 1) + U64 by omega]
  rw [Nat.add_mod_right]
  exact Nat.mod_eq_of_lt (by omega)

/-- C7 (amended): for a fixed configuration whose thread count is a valid
32-bit value, the value range is monotonically non-decreasing in the global
insert-key counter PROVIDED the dynamic computation does not wrap at the
earlier state (`insert_threads + 1 ≤ icount + k1`) and the 64-bit sum does
not overflow at the later state; with a fixed random range configured it is
constant (it does not depend on the counter at all). -/
theorem C7_value_range_monotone (cfg : CONFIG) (k1 k2 : Nat)
    (hk : k1 ≤ k2)
    (h1 : cfg.insert_threads + 1 < U32)
    (h3 : cfg.icount + k2 < U64)
    (h2 : cfg.random_range = 0 → cfg.insert_threads + 1 ≤ cfg.icount + k1) :
    wtperf_value_range cfg k1 ≤ wtperf_value_range cfg k2 ∧
    (cfg.random_range ≠ 0 → wtperf_value_range cfg k1 = wtperf_value_range cfg k2) := by
  by_cases h0 : cfg.random_range = 0
  · rw [wtperf_value_range_no_wrap cfg k1 h0 h1 (h2 h0) (by omega),
        wtperf_value_range_no_wrap cfg k2 h0 h1 (by have := h2 h0; omega) h3]
    exact ⟨by omega, fun hne => absurd h0 hne⟩
  · constructor
    · unfold wtperf_value_range
      rw [if_pos h0, if_pos h0]
    · intro _
      unfold wtperf_value_range
      rw [if_pos h0, if_pos h0]

/-- C7 witness: dynamic mode, `icount = 1000`, one insert thread, counter
states 0 ≤ 7. -/
theorem C7_witness :
    wtperf_value_range ⟨1000, 0, 1, false⟩ 0 ≤ wtperf_value_range ⟨1000, 0, 1, false⟩ 7 ∧
    ((⟨1000, 0, 1, false⟩ : CONFIG).random_range ≠ 0 →
      wtperf_value_range ⟨1000, 0, 1, false⟩ 0 = wtperf_value_range ⟨1000, 0, 1, false⟩ 7) :=
  C7_value_range_monotone ⟨1000, 0, 1, false⟩ 0 7 (by decide) (by decide)
    (by decide) (fun _ => by decide)

/-- C7 counterexample: with `icount = 0`, `random_range = 0` and one insert
thread (a reachable state: the counter is reset to 0 at workload start,
wtperf.c:816), the 64-bit subtraction wraps; the counter states 1 ≤ 2 give
value ranges `2^64 - 1` and then `0` — the range DECREASES, refuting
unconditional monotonicity. -/
theorem C7_counterexample :
    (1 : Nat) ≤ 2 ∧
    wtperf_value_range ⟨0, 0, 1, false⟩ 1 = U64 - 1 ∧
    wtperf_value_range ⟨0, 0, 1, false⟩ 2 = 0 ∧
    ¬(wtperf_value_range ⟨0, 0, 1, false⟩ 1 ≤ wtperf_value_range ⟨0, 0, 1, false⟩ 2) := by
  refine ⟨by decide, by decide, by decide, ?_⟩
  decide

/-- C10 (amended): with `random_range = 0`, the dynamic computation
`icount + g_insert_key - (insert_threads + 1)` never wraps in 64-bit
arithmetic — the result equals the exact integer difference and is at most
`icount + g_insert_key` — PROVIDED `insert_threads + 1 ≤ icount + counter`
holds at the state (and the 64-bit sum does not overflow); the proviso fails
at reachable states, see the counterexample. -/
theorem C10_value_range_exact (cfg : CONFIG) (key : Nat)
    (h0 : cfg.random_range = 0)
    (h1 : cfg.insert_threads + 1 < U32)
    (h2 : cfg.insert_threads + 1 ≤ cfg.icount + key)
    (h3 : cfg.icount + key < U64) :
    wtperf_value_range cfg key = cfg.icount + key - (cfg.insert_threads + 1) ∧
    wtperf_value_range cfg key ≤ cfg.icount + key := by
  have h := wtperf_value_range_no_wrap cfg key h0 h1 h2 h3
  exact ⟨h, by omega⟩

/-- C10 witness: `icount = 1000`, one insert thread, counter 0 (the value at
workload start): the range is exactly `1000 - 2 = 998`. -/
theorem C10_witness :
    wtperf_value_range ⟨1000, 0, 1, false⟩ 0 = 1000 + 0 - (1 + 1) ∧
    wtperf_value_range ⟨1000, 0, 1, false⟩ 0 ≤ 1000 + 0 :=
  C10_value_range_exact ⟨1000, 0, 1, false⟩ 0 (by decide) (by decide) (by decide)
    (by decide)

/-- C10 counterexample: with `random_range = 0`, `icount = 0`, one insert
thread and the counter at 0 — exactly the state at workload start
(wtperf.c:816 resets the counter to 0) before any insert — the subtraction
wraps to `2^64 - 2`, which exceeds `icount + counter = 0`, refuting the
claim that the computation never wraps for every reachable counter value. -/
theorem C10_counterexample :
    wtperf_value_range ⟨0, 0, 1, false⟩ 0 = U64 - 2 ∧
    ¬(wtperf_value_range ⟨0, 0, 1, false⟩ 0 ≤ 0 + 0) := by
  refine ⟨by decide, ?_⟩
  decide

/-! ### Latency aggregator -/

/-- Unit conversions (macros in `wtperf.h`, not part of the sources; modelled
from the spec's tiers: microseconds, milliseconds, seconds versus
nanoseconds). -/
def us_to_ns (x : Nat) : Nat := x * 1000

def ms_to_ns (x : Nat) : Nat := x * 1000000

def sec_to_ns (x : Nat) : Nat := x * 1000000000

def ns_to_us (v : Nat) : Nat := v / 1000

def ns_to_ms (v : Nat) : Nat := v / 1000000

def ns_to_sec (v : Nat) : Nat := v / 1000000000

/-- Per-operation-kind tracking structure (TRACK in `wtperf.h`, not part of
the sources; modelled from the spec: cumulative operation count, the
"aggregated" counter of operations since the last latency sample, cumulative
latency, running minimum and maximum per-operation latency — both stored
through a `(uint32_t)` cast, wtperf.c:146,148 — and the three histogram
tiers: 1000 sub-millisecond buckets, 1000 millisecond buckets, 100 second
buckets whose last element doubles as the overflow bucket). -/
structure TRACK where
  ops : Nat
  aggregated : Nat
  latency : Nat
  min_latency : Nat
  max_latency : Nat
  us : List Nat
  ms : List Nat
  sec : List Nat

/-- `track_aggregated_update` (wtperf.c:132-174): no-op when nothing was
aggregated; otherwise compute the per-call average `v = nsecs / aggregated`,
add the full `nsecs` to the cumulative latency, fold `v` into the running
min/max through `(uint32_t)` casts, and add `trk->aggregated` to the single
histogram bucket selected by the if / else-if chain on `v` (the chain is
rendered here as one guard per tier: `v < 10^6` for the microsecond tier,
`10^6 ≤ v < 10^9` for the millisecond tier, `10^9 ≤ v` for the second tier
with the in-range / overflow split).  Finally the aggregated counter is
cleared. -/
def track_aggregated_update (trk : TRACK) (nsecs aggregated : Nat) : TRACK :=
  if trk.aggregated = 0 then trk
  else
    { trk with
      latency := trk.latency + nsecs
      max_latency :=
        if trk.max_latency < nsecs / aggregated then (nsecs / aggregated) % U32
        else trk.max_latency
      min_latency :=
        if nsecs / aggregated < trk.min_latency then (nsecs / aggregated) % U32
        else trk.min_latency
      us :=
        if nsecs / aggregated < us_to_ns 1000 then
          trk.us.set (ns_to_us (nsecs / aggregated))
            (trk.us.getD (ns_to_us (nsecs / aggregated)) 0 + trk.aggregated)
        else trk.us
      ms :=
        if us_to_ns 1000 ≤ nsecs / aggregated ∧ nsecs / aggregated < ms_to_ns 1000 then
          trk.ms.set (ns_to_ms (nsecs / aggregated))
            (trk.ms.getD (ns_to_ms (nsecs / aggregated)) 0 + trk.aggregated)
        else trk.ms
      sec :=
        if ms_to_ns 1000 ≤ nsecs / aggregated then
          (if nsecs / aggregated < sec_to_ns 100 then
             trk.sec.set (ns_to_sec (nsecs / aggregated))
               (trk.sec.getD (ns_to_sec (nsecs / aggregated)) 0 + trk.aggregated)
           else
             trk.sec.set (trk.sec.length - 1)
               (trk.sec.getD (trk.sec.length - 1) 0 + trk.aggregated))
        else trk.sec
      aggregated := 0 }

/-- Exactly one histogram bucket of the track was incremented, by `n`: one
index of one tier was bumped by `n` and the other two tiers are untouched. -/
def one_bucket_bumped (trk trk' : TRACK) (n : Nat) : Prop :=
  (∃ i, i < trk.us.length ∧
     trk'.us = trk.us.set i (trk.us.getD i 0 + n) ∧
     trk'.ms = trk.ms ∧ trk'.sec = trk.sec) ∨
  (∃ i, i < trk.ms.length ∧
     trk'.ms = trk.ms.set i (trk.ms.getD i 0 + n) ∧
     trk'.us = trk.us ∧ trk'.sec = trk.sec) ∨
  (∃ i, i < trk.sec.length ∧
     trk'.sec = trk.sec.set i (trk.sec.getD i 0 + n) ∧
     trk'.us = trk.us ∧ trk'.ms = trk.ms)

/-- C3 (amended): a call `track_aggregated_update trk nsecs opcount` with the
track's aggregated counter equal to `opcount > 0` increments exactly one
histogram bucket by `opcount`, increases the cumulative latency by exactly
`nsecs`, and afterwards the running minimum is at most the batch average
`nsecs / opcount` and the running maximum at least that average — PROVIDED
the batch average fits in 32 bits (`nsecs / opcount < 2^32`); without that
proviso the `(uint32_t)` cast truncates the stored maximum, see the
counterexample.  The length hypotheses are the bucket-array sizes fixed by
the TRACK struct. -/
theorem C3_track_aggregated_update (trk : TRACK) (nsecs opcount : Nat)
    (hagg : trk.aggregated = opcount) (hpos : 0 < opcount)
    (hv : nsecs / opcount < U32)
    (hus : trk.us.length = 1000) (hms : trk.ms.length = 1000)
    (hsec : trk.sec.length = 100) :
    (track_aggregated_update trk nsecs opcount).latency = trk.latency + nsecs ∧
    one_bucket_bumped trk (track_aggregated_update trk nsecs opcount) opcount ∧
    (track_aggregated_update trk nsecs opcount).min_latency ≤ nsecs / opcount ∧
    nsecs / opcount ≤ (track_aggregated_update trk nsecs opcount).max_latency := by
  have hne : ¬ trk.aggregated = 0 := by omega
  have hmod : nsecs / opcount % U32 = nsecs / opcount := Nat.mod_eq_of_lt hv
  unfold track_aggregated_update
  rw [if_neg hne]
  refine ⟨rfl, ?_, ?_, ?_⟩
  · unfold one_bucket_bumped
    dsimp only
    by_cases h6 : nsecs / opcount < us_to_ns 1000
    · refine Or.inl ⟨ns_to_us (nsecs / opcount), ?_, ?_, ?_, ?_⟩
      · unfold ns_to_us us_to_ns at *
        omega
      · rw [if_pos h6, hagg]
      · rw [if_neg (by unfold us_to_ns at *; omega)]
      · rw [if_neg (by unfold us_to_ns ms_to_ns at *; omega)]
    · by_cases h9 : nsecs / opcount < ms_to_ns 1000
      · refine Or.inr (Or.inl ⟨ns_to_ms (nsecs / opcount), ?_, ?_, ?_, ?_⟩)
        · unfold ns_to_ms ms_to_ns at *
          omega
        · rw [if_pos ⟨by omega, h9⟩, hagg]
        · rw [if_neg h6]
        · rw [if_neg (by unfold ms_to_ns at *; omega)]
      · by_cases h11 : nsecs / opcount < sec_to_ns 100
        · refine Or.inr (Or.inr ⟨ns_to_sec (nsecs / opcount), ?_, ?_, ?_, ?_⟩)
          · unfold ns_to_sec sec_to_ns at *
            omega
          · rw [if_pos (by unfold ms_to_ns at *; omega), if_pos h11, hagg]
          · rw [if_neg h6]
          · rw [if_neg (fun hc => h9 hc.2)]
        · refine Or.inr (Or.inr ⟨trk.sec.length - 1, by omega, ?_, ?_, ?_⟩)
          · rw [if_pos (by unfold ms_to_ns at *; omega), if_neg h11, hagg]
          · rw [if_neg h6]
          · rw [if_neg (fun hc => h9 hc.2)]
  · dsimp only
    by_cases hlt : nsecs / opcount < trk.min_latency
    · rw [if_pos hlt, hmod]
    · rw [if_neg hlt]; omega
  · dsimp only
    by_cases hgt : trk.max_latency < nsecs / opcount
    · rw [if_pos hgt, hmod]
    · rw [if_neg hgt]; omega

/-- A freshly initialized track (`start_threads`, wtperf.c:1297-1301:
`min_latency = UINT32_MAX`, `max_latency = 0`) with 4 aggregated operations. -/
def trk_fresh : TRACK :=
  ⟨0, 4, 0, 4294967295, 0, List.replicate 1000 0, List.replicate 1000 0,
   List.replicate 100 0⟩

/-- C3 witness: a batch of 4 operations taking 2000 ns total (average 500 ns)
against a freshly initialized track. -/
theorem C3_witness :
    (track_aggregated_update trk_fresh 2000 4).latency = trk_fresh.latency + 2000 ∧
    one_bucket_bumped trk_fresh (track_aggregated_update trk_fresh 2000 4) 4 ∧
    (track_aggregated_update trk_fresh 2000 4).min_latency ≤ 2000 / 4 ∧
    2000 / 4 ≤ (track_aggregated_update trk_fresh 2000 4).max_latency :=
  C3_track_aggregated_update trk_fresh 2000 4 rfl (by decide) (by decide)
    (by simp [trk_fresh]) (by simp [trk_fresh]) (by simp [trk_fresh])

/-- A freshly initialized track with 1 aggregated operation. -/
def trk_once : TRACK :=
  ⟨0, 1, 0, 4294967295, 0, List.replicate 1000 0, List.replicate 1000 0,
   List.replicate 100 0⟩

/-- C3 counterexample: one operation taking `2^32` ns (~4.3 s).  The batch
average is `2^32`, the code stores `(uint32_t)2^32 = 0` as the new running
maximum (wtperf.c:146), so after the call the running maximum is 0, NOT at
least the batch average as the claim states. -/
theorem C3_counterexample :
    trk_once.aggregated = 1 ∧
    (track_aggregated_update trk_once 4294967296 1).max_latency = 0 ∧
    ¬(4294967296 / 1 ≤ (track_aggregated_update trk_once 4294967296 1).max_latency) := by
  refine ⟨rfl, by decide, by decide⟩

/-! ### Worker operation dispatch -/

/-- Tri-state outcome of a store cursor call (§6 of the spec): success,
`WT_NOTFOUND`, or any other error code. -/
inductive WTRet where
  | ok
  | notfound
  | err (code : Nat)
deriving DecidableEq

/-- Which of the worker's per-kind Track records an operation is counted
against. -/
inductive TrackKind where
  | read
  | insert
  | update
deriving DecidableEq

/-- Result of the operation-dispatch switch of one worker iteration:
which track the operation is counted against (`none` = the iteration takes
`goto op_err` / `goto err`, the fatal path), and whether the cursor insert
respectively update call was issued. -/
structure DispatchResult where
  track : Option TrackKind
  insert_called : Bool
  update_called : Bool
deriving DecidableEq

/-- The `switch (*op)` operation dispatch of the worker loop
(wtperf.c:245-309), with the store's cursor results supplied as oracle
parameters (`search_ret`, `insert_ret`, `update_ret` are the returns the
cursor calls would produce on this iteration's key; scratch-buffer contents
are not modelled — no claim concerns them):

* `WORKER_READ` (246-259): search; success or `WT_NOTFOUND` counts as a read,
  anything else goes to `op_err`.
* `WORKER_INSERT_RMW` (260-267): search; any result other than `WT_NOTFOUND`
  — including success — goes to `op_err` WITHOUT issuing the insert;
  on `WT_NOTFOUND` fall through to the insert.
* `WORKER_INSERT` (268-274): insert; success counts as an insert, failure
  goes to `op_err`.
* `WORKER_UPDATE` (275-301): search; on success issue the update (success
  counts as an update, failure goes to `op_err`); on `WT_NOTFOUND` count the
  operation as a READ; any other result goes to `op_err`. -/
def worker_dispatch (op : WorkerOp) (search_ret insert_ret update_ret : WTRet) :
    DispatchResult :=
  match op with
  | .WORKER_READ =>
      match search_ret with
      | .ok => ⟨some .read, false, false⟩
      | .notfound => ⟨some .read, false, false⟩
      | .err _ => ⟨none, false, false⟩
  | .WORKER_INSERT_RMW =>
      match search_ret with
      | .notfound =>
          match insert_ret with
          | .ok => ⟨some .insert, true, false⟩
          | _ => ⟨none, true, false⟩
      | _ => ⟨none, false, false⟩
  | .WORKER_INSERT =>
      match insert_ret with
      | .ok => ⟨some .insert, true, false⟩
      | _ => ⟨none, true, false⟩
  | .WORKER_UPDATE =>
      match search_ret with
      | .ok =>
          match update_ret with
          | .ok => ⟨some .update, false, true⟩
          | _ => ⟨none, false, true⟩
      | .notfound => ⟨some .read, false, false⟩
      | .err _ => ⟨none, false, false⟩

/-- The global error/stop flags (`g_error`, `g_stop`, wtperf.c:89-90). -/
structure GlobalFlags where
  g_error : Bool
  g_stop : Bool
deriving DecidableEq

/-- Effect of one dispatch outcome on the global flags: the fatal path runs
`err: g_error = g_stop = 1` (wtperf.c:343-345) and the thread terminates;
a counted operation leaves the flags alone. -/
def worker_flags_after (d : DispatchResult) (g : GlobalFlags) : GlobalFlags :=
  if d.track.isNone then ⟨true, true⟩ else g

/-- Effect of one dispatch outcome on the thread's per-kind operation counts
(`++trk->ops`, wtperf.c:311): the track selected by the dispatch is
incremented, the others are untouched; the fatal path increments nothing. -/
def worker_ops_after (d : DispatchResult) (r i u : Nat) : Nat × Nat × Nat :=
  match d.track with
  | some .read => (r + 1, i, u)
  | some .insert => (r, i + 1, u)
  | some .update => (r, i, u + 1)
  | none => (r, i, u)

/-- C5 (confirmed): for the insert-with-read-modify-write operation, a
preliminary search returning success or any other error (the two cases other
than `WT_NOTFOUND`) is fatal: no track is incremented, the insert is NOT
issued, and the global error and stop flags are both set; only a
`WT_NOTFOUND` search result is followed by the insert call. -/
theorem C5_insert_rmw_requires_notfound (ir ur : WTRet) (g : GlobalFlags)
    (c : Nat) :
    (worker_dispatch .WORKER_INSERT_RMW .ok ir ur).track = none ∧
    (worker_dispatch .WORKER_INSERT_RMW .ok ir ur).insert_called = false ∧
    worker_flags_after (worker_dispatch .WORKER_INSERT_RMW .ok ir ur) g =
      ⟨true, true⟩ ∧
    (worker_dispatch .WORKER_INSERT_RMW (.err c) ir ur).track = none ∧
    (worker_dispatch .WORKER_INSERT_RMW (.err c) ir ur).insert_called = false ∧
    worker_flags_after (worker_dispatch .WORKER_INSERT_RMW (.err c) ir ur) g =
      ⟨true, true⟩ ∧
    (worker_dispatch .WORKER_INSERT_RMW .notfound ir ur).insert_called = true := by
  cases ir <;> simp [worker_dispatch, worker_flags_after]

/-- C6 (confirmed): for the update operation, a search returning
`WT_NOTFOUND` reclassifies the operation as a read: the read track is
incremented, the insert and update tracks are unchanged, no update call is
issued, and the global flags are untouched (the loop continues); a search
returning any error other than success / `WT_NOTFOUND` is fatal (no track,
both flags set). -/
theorem C6_update_notfound_is_read (ir ur : WTRet) (g : GlobalFlags)
    (r i u c : Nat) :
    worker_dispatch .WORKER_UPDATE .notfound ir ur = ⟨some .read, false, false⟩ ∧
    worker_ops_after (worker_dispatch .WORKER_UPDATE .notfound ir ur) r i u =
      (r + 1, i, u) ∧
    worker_flags_after (worker_dispatch .WORKER_UPDATE .notfound ir ur) g = g ∧
    (worker_dispatch .WORKER_UPDATE (.err c) ir ur).track = none ∧
    worker_flags_after (worker_dispatch .WORKER_UPDATE (.err c) ir ur) g =
      ⟨true, true⟩ := by
  simp [worker_dispatch, worker_flags_after, worker_ops_after]

/-! ### Populate loop -/

/-- The populate loop of `populate_thread` for the untransactioned case
(`populate_ops_per_txn == 0`, wtperf.c:493-507), with every insert
succeeding (insert failure aborts the loop; the claim assumes none fails):
`op = get_next_incr()` atomically increments the global insert-key counter
and returns its new value (wtperf.c:122-126); the loop exits as soon as
`op > icount`, otherwise it inserts key `op` and increments the thread's
insert-track operation count.  `fuel` bounds the recursion; the result is
the final `(g_insert_key, thread->insert.ops)` pair. -/
def populate_loop : Nat → Nat → Nat → Nat → Option (Nat × Nat)
  | 0, _, _, _ => none
  | fuel + 1, icount, g_insert_key, ops =>
      if g_insert_key + 1 > icount then some (g_insert_key + 1, ops)
      else populate_loop fuel icount (g_insert_key + 1) (ops + 1)

/-- Helper: from any counter state `key ≤ icount` and enough fuel, the
populate loop terminates with the counter at `icount + 1` (the final
`get_next_incr` that detects completion has already pushed it past `icount`)
and with `icount - key` successful inserts added to the track. -/
theorem populate_loop_reaches : ∀ fuel icount key ops,
    key ≤ icount → icount < key + fuel →
    populate_loop fuel icount key ops = some (icount + 1, ops + (icount - key)) := by
  intro fuel
  induction fuel with
  | zero =>
      intro icount key ops h1 h2
      exact absurd h2 (by omega)
  | succ n ih =>
      intro icount key ops h1 h2
      by_cases hb : key + 1 > icount
      · have hke : key = icount := by omega
        subst hke
        simp [populate_loop, if_pos hb]
      · simp only [populate_loop, if_neg hb]
        rw [ih icount (key + 1) (ops + 1) (by omega) (by omega)]
        have he : ops + 1 + (icount - (key + 1)) = ops + (icount - key) := by omega
        rw [he]

/-- C8 (amended): with `icount = 1000`, one populate thread, the counter
starting at 0 and no insert failing, the populate loop terminates with the
thread's insert-track operation count at exactly 1000 (keys 1..1000 each
inserted once) and the insert-key counter at 1001 = `icount + 1` — the final
`get_next_incr` overshoots the target by one; the counter passes through
1000 but does not end there. -/
theorem C8_populate_exactly_icount (fuel : Nat) (h : 1000 < fuel) :
    populate_loop fuel 1000 0 0 = some (1001, 1000) := by
  have hr := populate_loop_reaches fuel 1000 0 0 (by omega) (by omega)
  simpa using hr

/-- C8 witness: fuel 1100 suffices. -/
theorem C8_witness : populate_loop 1100 1000 0 0 = some (1001, 1000) :=
  C8_populate_exactly_icount 1100 (by omega)

/-- C8 counterexample: the loop's final insert-key counter is 1001, not the
exactly-1000 the claim states (the operation count is exactly 1000). -/
theorem C8_counterexample :
    populate_loop 1100 1000 0 0 = some (1001, 1000) ∧ (1001 : Nat) ≠ 1000 :=
  ⟨by simpa using populate_loop_reaches 1100 1000 0 0 (by omega) (by omega),
   by omega⟩
